import Mathlib

/-!
Shallow embedding of the weather-dashboard script `src/web_code.py`.

The script loads a weather table (CSV file seeding a MongoDB collection,
then reading the collection back), cleans it (drop the `_id` column, parse
the lowercase `date` column and derive `Month` / `Month_Name`), and renders
a fixed sequence of charts, each computed by a small pandas aggregation.

A pandas `DataFrame` row is modelled as an association list from column
names to cell values; a `DataFrame` is the list of its rows.  All machine
floats of the script are modelled as exact rationals; the Pearson
correlation (which divides by square roots) is modelled over the reals.
-/

set_option linter.unusedVariables false

namespace WebCode

/-- A calendar date as produced by date parsing (year, month, day). -/
structure DateV where
  year : Nat
  month : Nat
  day : Nat
  deriving DecidableEq, Repr

/-- One cell of the table: a string label, a numeric value, or a parsed date. -/
inductive Value where
  | str (s : String)
  | num (q : ℚ)
  | date (d : DateV)
  deriving DecidableEq, Repr

/-- One record (DataFrame row): an association list from column names to cells. -/
abbrev Row : Type := List (String × Value)

/-- A DataFrame: the list of its rows, in source order. -/
abbrev Table : Type := List Row

/-- First value stored under column `c` in row `r` (pandas cell access). -/
def getVal : Row → String → Option Value
  | [], _ => none
  | p :: r, c => if p.1 = c then some p.2 else getVal r c

/-- Whether row `r` carries an entry for column `c`. -/
def hasKey (r : Row) (c : String) : Bool :=
  r.any (fun p => decide (p.1 = c))

/-- Column assignment on one row: replace the first entry for `c`
(keeping its position), or append a new entry when `c` is absent.
This matches `df[c] = v` for a frame whose columns are unique. -/
def setKey : Row → String → Value → Row
  | [], c, v => [(c, v)]
  | p :: r, c, v => if p.1 = c then (c, v) :: r else p :: setKey r c v

/-- Remove every entry for column `c` from row `r` (`df.drop(columns=[c])`). -/
def dropKey (r : Row) (c : String) : Row :=
  r.filter (fun p => decide (p.1 ≠ c))

/-- `c in df.columns`: some row carries the column. -/
def hasCol (t : Table) (c : String) : Bool :=
  t.any (fun r => hasKey r c)

/-- `df.drop(columns=[c])` across the whole table. -/
def dropCol (t : Table) (c : String) : Table :=
  t.map (fun r => dropKey r c)

/-- The column `c` of the table, in row order (rows without the column
contribute nothing; a uniform frame has the column in every row). -/
def getColVals (t : Table) (c : String) : List Value :=
  t.filterMap (fun r => getVal r c)

/-! ### Date parsing and month derivation (lines 60-63 and 132-133) -/

/-- Split a character list on the dash separator. -/
def splitDash : List Char → List Char → List (List Char)
  | [], acc => [acc.reverse]
  | ch :: rest, acc =>
      if ch = '-' then acc.reverse :: splitDash rest []
      else splitDash rest (ch :: acc)

/-- Decimal digits to a number; `none` when a character is not a digit. -/
def digitsToNat : List Char → Option Nat
  | [] => none
  | cs => cs.foldlM (fun n ch => if ch.isDigit then some (n * 10 + (ch.toNat - 48)) else none) 0

/-- Models `pd.to_datetime` on an ISO `YYYY-MM-DD` string, the only date
format the dataset uses; the general pandas parser is library code outside
the repository.  Fails on anything else. -/
def parseDateStr (s : String) : Option DateV :=
  match (splitDash s.toList []).mapM digitsToNat with
  | some [y, m, d] =>
      if 1 ≤ m ∧ m ≤ 12 ∧ 1 ≤ d ∧ d ≤ 31 then some ⟨y, m, d⟩ else none
  | _ => none

/-- `pd.to_datetime` on one cell: an already-parsed date is returned as is,
a string is parsed, a number is rejected. -/
def parseDate : Value → Option Value
  | .date d => some (.date d)
  | .str s => (parseDateStr s).map Value.date
  | .num _ => none

/-- Month number of a parsed date cell (`Series.dt.month`). -/
def dateMonth : Value → Nat
  | .date d => d.month
  | _ => 0

/-- `Series.dt.month_name()`: locale-independent English full month name. -/
def monthName : Nat → String
  | 1 => "January"
  | 2 => "February"
  | 3 => "March"
  | 4 => "April"
  | 5 => "May"
  | 6 => "June"
  | 7 => "July"
  | 8 => "August"
  | 9 => "September"
  | 10 => "October"
  | 11 => "November"
  | 12 => "December"
  | _ => "Unknown"

/-! ### Cleaning (lines 56-63 of `load_data`) -/

/-- Row part of lines 61-63: parse the `date` cell, then set `Month` and
`Month_Name` from the parsed month.  A row without a `date` entry (possible
only for a non-uniform frame, which pandas does not produce) passes through.
Fails when the date cell does not parse, which the caller's catch-all turns
into the single loading error. -/
def cleanRow (r : Row) : Option Row :=
  match getVal r "date" with
  | none => some r
  | some v =>
      (parseDate v).map (fun v0 =>
        let m := dateMonth v0
        setKey (setKey (setKey r "date" v0) "Month" (.num (m : ℚ))) "Month_Name" (.str (monthName m)))

/-- `cleanRow` across all rows, failing if any row fails. -/
def cleanRows : List Row → Option (List Row)
  | [] => some []
  | r :: rs =>
      match cleanRow r, cleanRows rs with
      | some r1, some rs1 => some (r1 :: rs1)
      | _, _ => none

/-- Lines 56-57: `if "_id" in df.columns: df.drop(columns=["_id"])`. -/
def dropIdCol (t : Table) : Table :=
  if hasCol t "_id" then dropCol t "_id" else t

/-- Lines 56-63: drop `_id` when present; when a lowercase `date` column
exists, parse it and derive `Month` and `Month_Name`. -/
def clean (t : Table) : Option Table :=
  if hasCol (dropIdCol t) "date" then cleanRows (dropIdCol t) else some (dropIdCol t)

/-! ### Value counting and top-N selection (lines 81, 117, 205) -/

/-- The distinct values of a list, in order of first appearance (the order
in which the pandas hashtable of `value_counts` meets the categories). -/
def distinctAux : List Value → List Value → List Value
  | [], _ => []
  | x :: xs, seen => if x ∈ seen then distinctAux xs seen else x :: distinctAux xs (x :: seen)

/-- Distinct values in first-appearance order. -/
def distinctInOrder (l : List Value) : List Value :=
  distinctAux l []

/-- Number of occurrences of `a` in `l`. -/
def countVal (l : List Value) (a : Value) : Nat :=
  (l.filter (fun b => decide (b = a))).length

/-- Stable descending insertion by count: an element is placed before the
first strictly smaller count, after any earlier element with an equal count. -/
def insertPair (x : Value × Nat) : List (Value × Nat) → List (Value × Nat)
  | [] => [x]
  | y :: ys => if y.2 ≤ x.2 then x :: y :: ys else y :: insertPair x ys

/-- Stable sort of category/count pairs by descending count. -/
def sortPairs : List (Value × Nat) → List (Value × Nat)
  | [] => []
  | x :: xs => insertPair x (sortPairs xs)

/-- `Series.value_counts()`: counts of the distinct values, sorted by
descending count, ties kept in first-appearance order. -/
def valueCounts (l : List Value) : List (Value × Nat) :=
  sortPairs ((distinctInOrder l).map (fun a => (a, countVal l a)))

/-- Line 81: `df["Weather"].value_counts().sort_values(ascending=False).head()`
(the extra sort is a stable descending re-sort; `head()` keeps five). -/
def weatherCountsHead (t : Table) : List (Value × Nat) :=
  (sortPairs (valueCounts (getColVals t "Weather"))).take 5

/-- Line 117: `df["Weather"].value_counts().nlargest(10)` (pandas documents
`nlargest n` as `sort_values(ascending=False).head(n)`). -/
def weatherTop10 (t : Table) : List (Value × Nat) :=
  (sortPairs (valueCounts (getColVals t "Weather"))).take 10

/-! ### Pearson correlation (lines 103-107)

The three numeric columns hold exact rationals in this model; the Pearson
quotient, whose denominator is a product of square roots, lives in `ℝ`. -/

/-- Numeric view of a cell. -/
def toNum : Value → Option ℚ
  | .num q => some q
  | _ => none

/-- The numeric entries of a column. -/
def colNums (t : Table) (c : String) : List ℚ :=
  (getColVals t c).filterMap toNum

/-- Arithmetic mean of a list of rationals (0 on the empty list). -/
def meanQ (l : List ℚ) : ℚ :=
  l.sum / (l.length : ℚ)

/-- Covariance of two equal-length columns (population normalisation; the
Pearson quotient does not depend on the normalisation constant). -/
def covQ (xs ys : List ℚ) : ℚ :=
  (((xs.zip ys).map (fun p => (p.1 - meanQ xs) * (p.2 - meanQ ys))).sum) / (((xs.zip ys).length : ℚ))

/-- Variance of a column. -/
def varQ (xs : List ℚ) : ℚ :=
  covQ xs xs

/-- Pearson correlation coefficient of two columns, `DataFrame.corr` entry. -/
noncomputable def pearson (xs ys : List ℚ) : ℝ :=
  ((covQ xs ys : ℚ) : ℝ) / (Real.sqrt ((varQ xs : ℚ) : ℝ) * Real.sqrt ((varQ ys : ℚ) : ℝ))

/-- Line 103: the three numeric feature columns of the heatmap. -/
def featuresL : List String :=
  ["Temperature(°C)", "Humidity (%)", "Barometer (inHg)"]

/-- The feature list as a function on `Fin 3`. -/
def featureAt : Fin 3 → String
  | ⟨0, _⟩ => "Temperature(°C)"
  | ⟨1, _⟩ => "Humidity (%)"
  | ⟨2, _⟩ => "Barometer (inHg)"

/-- Lines 104-105: when all three feature columns are present, the 3 by 3
matrix of pairwise Pearson correlations; otherwise the step is skipped. -/
noncomputable def corrStep (t : Table) : Option (Fin 3 → Fin 3 → ℝ) :=
  if featuresL.all (fun f => hasCol t f) then
    some (fun i j => pearson (colNums t (featureAt i)) (colNums t (featureAt j)))
  else none

/-! ### Wind-by-month pivot (lines 204-211) -/

/-- Line 205: the labels of the ten most frequent wind descriptors
(`value_counts().nlargest(10).index`). -/
def top10Winds (t : Table) : List Value :=
  ((sortPairs (valueCounts (getColVals t "Wind (mph)"))).take 10).map Prod.fst

/-- Row predicate of line 208: `df['Wind (mph)'].isin(top_10_wind_types)`
(a missing cell is never a member). -/
def windInTop (t : Table) (r : Row) : Bool :=
  match getVal r "Wind (mph)" with
  | some v => decide (v ∈ top10Winds t)
  | none => false

/-- Line 208: the table restricted to the top-10 wind descriptors. -/
def windFiltered (t : Table) : Table :=
  t.filter (fun r => windInTop t r)

/-- The months indexing the pivot rows (pandas presents them sorted; the
claims below are invariant under the index order). -/
def pivotMonths (t : Table) : List Value :=
  distinctInOrder (getColVals (windFiltered t) "Month")

/-- The wind descriptors labelling the pivot columns (pandas presents them
sorted; the claims below are invariant under the column order). -/
def pivotCols (t : Table) : List Value :=
  distinctInOrder (getColVals (windFiltered t) "Wind (mph)")

/-- Line 211: one cell of `pivot_table(index='Month', columns='Wind (mph)',
aggfunc='size', fill_value=0)` — the number of filtered records of month `m`
with wind descriptor `w` (0 when the combination is absent). -/
def pivotCell (t : Table) (m w : Value) : Nat :=
  ((windFiltered t).filter
    (fun r => decide (getVal r "Month" = some m) && decide (getVal r "Wind (mph)" = some w))).length

/-- The full pivot: for each month row, the cell of every wind column. -/
def windPivot (t : Table) : List (Value × List (Value × Nat)) :=
  (pivotMonths t).map (fun m => (m, (pivotCols t).map (fun w => (w, pivotCell t m w))))

/-! ### The chart pipeline (lines 75-241)

Each numbered chart of the script is one step.  A step receives the current
frame, may mutate it (step 4 reassigns `Date` and `Month` on the shared
`df`), may emit one chart, and may raise; a raised error aborts every later
step, as an uncaught exception does in the script. -/

/-- Errors a step can raise: a missing column subscript (`KeyError`), a
charting-library rejection (`ValueError`), an unparseable date, and the
loading failures of `load_data`. -/
inductive Err where
  | keyError (c : String)
  | valueError
  | parseError
  | fileError
  | connError
  | queryError
  | writeError
  deriving DecidableEq, Repr

/-- String rendering of a cell (`Series.astype(str)`). -/
def valueStr : Value → String
  | .str s => s
  | .num q => toString q
  | .date d => toString d.year ++ "-" ++ toString d.month ++ "-" ++ toString d.day

/-- The data behind one rendered chart. -/
inductive ChartOut where
  | pie (l : List (Value × Nat))
  | heatmap (a b c : List ℚ)
  | bar (l : List (Value × Nat))
  | line (l : List (Value × ℚ × ℚ))
  | hist (l : List ℚ)
  | box (l : List (Value × ℚ))
  | scatter (xcol : String) (l : List (ℚ × ℚ))
  | stackedBar (l : List (Value × List (Value × Nat)))
  | cloud (ws : List String)
  deriving DecidableEq, Repr

/-- Outcome of one pipeline step: the (possibly mutated) frame and the chart
it emitted, if any. -/
abbrev StepOut := Except Err (Table × Option ChartOut)

/-- Chart 1 (lines 79-95): weather pie.  `df["Weather"]` is an unguarded
subscript, so a missing column raises. -/
def pieStep (t : Table) : StepOut :=
  if hasCol t "Weather" then .ok (t, some (.pie (weatherCountsHead t)))
  else .error (.keyError "Weather")

/-- Chart 2 (lines 103-108): correlation heatmap, guarded by the presence of
all three feature columns; skipped otherwise.  `corr` on a present but
non-numeric column is a library rejection. -/
def heatmapStep (t : Table) : StepOut :=
  if featuresL.all (fun f => hasCol t f) then
    match (getColVals t "Temperature(°C)").mapM toNum,
          (getColVals t "Humidity (%)").mapM toNum,
          (getColVals t "Barometer (inHg)").mapM toNum with
    | some a, some b, some c => .ok (t, some (.heatmap a b c))
    | _, _, _ => .error .valueError
  else .ok (t, none)

/-- Chart 3 (lines 116-124): frequency bar, guarded by `"Weather" in df.columns`. -/
def barStep (t : Table) : StepOut :=
  if hasCol t "Weather" then .ok (t, some (.bar (weatherTop10 t)))
  else .ok (t, none)

/-- Row part of lines 132-133: parse the `Date` cell and set `Month` from
its month number.  No `Month_Name` is derived here. -/
def monthRow (r : Row) : Option Row :=
  match getVal r "Date" with
  | none => some r
  | some v =>
      (parseDate v).map (fun v0 =>
        setKey (setKey r "Date" v0) "Month" (.num ((dateMonth v0 : ℕ) : ℚ)))

/-- `monthRow` across all rows. -/
def monthRows : List Row → Option (List Row)
  | [] => some []
  | r :: rs =>
      match monthRow r, monthRows rs with
      | some r1, some rs1 => some (r1 :: rs1)
      | _, _ => none

/-- Month/temperature pairs of the melted frame (a row contributes when both
cells are present and the temperature is numeric). -/
def monthTempPairs (t : Table) : List (Value × ℚ) :=
  t.filterMap (fun r =>
    match getVal r "Month", (getVal r "Temperature(°C)").bind toNum with
    | some m, some q => some (m, q)
    | _, _ => none)

/-- Line 136: per-month minimum and maximum temperature, one entry per
distinct month (pandas presents the group keys sorted; the claims below do
not depend on the group order). -/
def monthlyTempAgg (t : Table) : List (Value × ℚ × ℚ) :=
  (distinctInOrder (getColVals t "Month")).filterMap (fun m =>
    let temps := (monthTempPairs t).filterMap (fun p => if p.1 = m then some p.2 else none)
    match temps.min?, temps.max? with
    | some lo, some hi => some (m, lo, hi)
    | _, _ => none)

/-- Chart 4 (lines 132-151): `df['Date'] = pd.to_datetime(df['Date'])` and
`df['Month'] = df['Date'].dt.month` run unguarded — a missing `Date` column
raises `KeyError`, an unparseable cell raises inside `to_datetime` — then
the min/max aggregation itself is guarded by the presence of `Month` and
`Temperature(°C)`. -/
def monthlyStep (t : Table) : StepOut :=
  if hasCol t "Date" then
    match monthRows t with
    | none => .error .parseError
    | some t1 =>
        if hasCol t1 "Month" && hasCol t1 "Temperature(°C)" then
          .ok (t1, some (.line (monthlyTempAgg t1)))
        else .ok (t1, none)
  else .error (.keyError "Date")

/-- Chart 5 (lines 156-160): temperature histogram, guarded. -/
def histStep (t : Table) : StepOut :=
  if hasCol t "Temperature(°C)" then .ok (t, some (.hist (colNums t "Temperature(°C)")))
  else .ok (t, none)

/-- Chart 6 (lines 164-172): monthly boxplot.  `px.box` is unguarded and
rejects a frame missing either column. -/
def boxStep (t : Table) : StepOut :=
  if hasCol t "Month" then
    if hasCol t "Temperature(°C)" then .ok (t, some (.box (monthTempPairs t)))
    else .error (.keyError "Temperature(°C)")
  else .error (.keyError "Month")

/-- Numeric pairs of two columns for a scatter plot. -/
def scatterPairs (t : Table) (xc yc : String) : List (ℚ × ℚ) :=
  t.filterMap (fun r =>
    match (getVal r xc).bind toNum, (getVal r yc).bind toNum with
    | some x, some y => some (x, y)
    | _, _ => none)

/-- Chart 7a (lines 179-187): temperature vs humidity scatter, guarded. -/
def scatter1Step (t : Table) : StepOut :=
  if hasCol t "Temperature(°C)" && hasCol t "Humidity (%)" then
    .ok (t, some (.scatter "Humidity (%)" (scatterPairs t "Humidity (%)" "Temperature(°C)")))
  else .ok (t, none)

/-- Chart 7b (lines 190-198): temperature vs barometer scatter, guarded. -/
def scatter2Step (t : Table) : StepOut :=
  if hasCol t "Temperature(°C)" && hasCol t "Barometer (inHg)" then
    .ok (t, some (.scatter "Barometer (inHg)" (scatterPairs t "Barometer (inHg)" "Temperature(°C)")))
  else .ok (t, none)

/-- Chart 8 (lines 203-226): stacked wind bar.  `df['Wind (mph)']` and the
pivot on `Month` are unguarded subscripts. -/
def windStep (t : Table) : StepOut :=
  if hasCol t "Wind (mph)" then
    if hasCol t "Month" then .ok (t, some (.stackedBar (windPivot t)))
    else .error (.keyError "Month")
  else .error (.keyError "Wind (mph)")

/-- Whitespace-joined tokens of the weather column (`' '.join(...)` then the
word-cloud tokenizer). -/
def weatherTokens (t : Table) : List String :=
  (((getColVals t "Weather").map valueStr).foldr (fun s acc => s.splitOn " " ++ acc) []).filter
    (fun s => decide (s ≠ ""))

/-- Chart 9 (lines 232-238): word cloud, guarded by the `Weather` column;
`WordCloud.generate` rejects a text with no words. -/
def cloudStep (t : Table) : StepOut :=
  if hasCol t "Weather" then
    let ws := weatherTokens t
    if ws.isEmpty then .error .valueError else .ok (t, some (.cloud ws))
  else .ok (t, none)

/-- The nine chart steps, in script order. -/
def stepList : List (Table → StepOut) :=
  [pieStep, heatmapStep, barStep, monthlyStep, histStep,
   boxStep, scatter1Step, scatter2Step, windStep, cloudStep]

/-- Run the steps in order on the shared frame, collecting emitted charts;
the first raised error aborts the remaining steps. -/
def runSteps : List (Table → StepOut) → Table → List ChartOut × Option Err
  | [], _ => ([], none)
  | s :: ss, t =>
      match s t with
      | .error e => ([], some e)
      | .ok (t1, o) =>
          let rest := runSteps ss t1
          (o.toList ++ rest.1, rest.2)

/-- The whole visualization block (lines 75-238). -/
def runCharts (t : Table) : List ChartOut × Option Err :=
  runSteps stepList t

/-- What one page render produced. -/
structure PageResult where
  charts : List ChartOut
  err : Option Err
  warning : Option String
  deriving DecidableEq, Repr

/-- Lines 75 and 240-241: a non-empty frame is charted; an empty frame skips
every chart and shows the no-data notice. -/
def renderPage (t : Table) : PageResult :=
  if t.isEmpty then ⟨[], none, some "No data available for visualization"⟩
  else
    let r := runCharts t
    ⟨r.1, r.2, none⟩

/-! ### Data loading (lines 34-72)

The environment carries the outcome of each fallible external call: the CSV
read, the MongoDB connection, the `count_documents` and `find` queries, the
`insert_many` write, plus the current contents of the target collection. -/

/-- Outcomes of the external calls `load_data` makes, and the prior contents
of the `webscrops_data` collection. -/
structure Env where
  fileRes : Except Err Table
  connOk : Bool
  countOk : Bool
  insertOk : Bool
  findOk : Bool
  store : List Row

/-- `insert_many`: MongoDB stamps each stored document with an `_id` field
(modelled with one constant identifier; `clean` strips the column). -/
def seedDocs (t : Table) : List Row :=
  t.map (fun r => ("_id", Value.str "oid") :: r)

/-- The body of `load_data` (lines 37-65): read the CSV, connect, seed the
collection from the file when it is empty, read the collection back, clean.
Returns the cleaned frame, the final collection contents, and whether the
bulk insert ran. -/
def load_body (env : Env) : Except Err (Table × List Row × Bool) :=
  match env.fileRes with
  | .error e => .error e
  | .ok fileDf =>
      if !env.connOk then .error .connError
      else if !env.countOk then .error .queryError
      else
        let seeded := env.store.isEmpty
        match (if seeded then
                 (if env.insertOk then .ok (env.store ++ seedDocs fileDf) else .error .writeError)
               else .ok env.store : Except Err (List Row)) with
        | .error e => .error e
        | .ok store1 =>
            if !env.findOk then .error .queryError
            else
              match clean store1 with
              | some c => .ok (c, store1, seeded)
              | none => .error .parseError

/-- The single user-visible notice of the `except` branch (line 68). -/
def errMsg (e : Err) : String :=
  "Data loading error: " ++ (reprStr e)

/-- `load_data` (lines 34-69): any failure of the body is caught, reported
as one error message, and converted into the empty frame. -/
def load_data (env : Env) : List String × Table :=
  match load_body env with
  | .ok (t, _, _) => ([], t)
  | .error e => ([errMsg e], [])

/-! ### Row-level lemmas -/

theorem hasKey_cons (p : String × Value) (r : Row) (c : String) :
    hasKey (p :: r) c = (decide (p.1 = c) || hasKey r c) := rfl

theorem dropKey_cons (p : String × Value) (r : Row) (c : String) :
    dropKey (p :: r) c = if p.1 = c then dropKey r c else p :: dropKey r c := by
  by_cases hp : p.1 = c <;> simp [dropKey, List.filter_cons, hp]

theorem getVal_eq_none_of_hasKey_false {r : Row} {c : String} (h : hasKey r c = false) :
    getVal r c = none := by
  induction r with
  | nil => rfl
  | cons p r ih =>
      rw [hasKey_cons, Bool.or_eq_false_iff, decide_eq_false_iff_not] at h
      rw [getVal, if_neg h.1]
      exact ih h.2

theorem hasKey_of_getVal_some {r : Row} {c : String} {v : Value} (h : getVal r c = some v) :
    hasKey r c = true := by
  induction r with
  | nil => simp [getVal] at h
  | cons p r ih =>
      by_cases hp : p.1 = c
      · simp [hasKey_cons, hp]
      · rw [getVal, if_neg hp] at h
        simp [hasKey_cons, hp, ih h]

theorem getVal_setKey_self (r : Row) (c : String) (v : Value) :
    getVal (setKey r c v) c = some v := by
  induction r with
  | nil => simp [setKey, getVal]
  | cons p r ih =>
      by_cases hp : p.1 = c
      · simp [setKey, hp, getVal]
      · simp [setKey, hp, getVal, ih]

theorem getVal_setKey_other {c c' : String} (h : c' ≠ c) (r : Row) (v : Value) :
    getVal (setKey r c v) c' = getVal r c' := by
  have hcc : ¬ c = c' := fun hh => h hh.symm
  induction r with
  | nil => simp [setKey, getVal, hcc]
  | cons p r ih =>
      by_cases hp : p.1 = c
      · have hp' : ¬ p.1 = c' := by rw [hp]; exact hcc
        simp [setKey, hp, getVal, hcc, hp']
      · by_cases hp' : p.1 = c'
        · simp [setKey, hp, getVal, hp', h]
        · simp [setKey, hp, getVal, hp', ih]

theorem setKey_getVal_eq {r : Row} {c : String} {v : Value} (h : getVal r c = some v) :
    setKey r c v = r := by
  induction r with
  | nil => simp [getVal] at h
  | cons p r ih =>
      by_cases hp : p.1 = c
      · rw [getVal, if_pos hp] at h
        cases h
        show (if p.1 = c then (c, p.2) :: r else p :: setKey r c p.2) = p :: r
        rw [if_pos hp, ← hp, Prod.mk.eta]
      · rw [getVal, if_neg hp] at h
        simp [setKey, hp, ih h]

theorem hasKey_setKey_self (r : Row) (c : String) (v : Value) :
    hasKey (setKey r c v) c = true :=
  hasKey_of_getVal_some (getVal_setKey_self r c v)

theorem hasKey_setKey_other {c c' : String} (h : c' ≠ c) (r : Row) (v : Value) :
    hasKey (setKey r c v) c' = hasKey r c' := by
  have hcc : ¬ c = c' := fun hh => h hh.symm
  induction r with
  | nil => simp [setKey, hasKey_cons, hasKey, hcc]
  | cons p r ih =>
      by_cases hp : p.1 = c
      · have hp' : ¬ p.1 = c' := by rw [hp]; exact hcc
        simp [setKey, hp, hasKey_cons, hcc, hp']
      · rw [setKey, if_neg hp, hasKey_cons, hasKey_cons, ih]

theorem hasKey_dropKey_self (r : Row) (c : String) : hasKey (dropKey r c) c = false := by
  induction r with
  | nil => rfl
  | cons p r ih =>
      rw [dropKey_cons]
      by_cases hp : p.1 = c
      · rw [if_pos hp]; exact ih
      · rw [if_neg hp, hasKey_cons, ih]
        simp [hp]

theorem hasKey_dropKey_other {c c' : String} (h : c' ≠ c) (r : Row) :
    hasKey (dropKey r c) c' = hasKey r c' := by
  induction r with
  | nil => rfl
  | cons p r ih =>
      rw [dropKey_cons]
      by_cases hp : p.1 = c
      · have hp' : ¬ p.1 = c' := by rw [hp]; exact fun hh => h hh.symm
        rw [if_pos hp, hasKey_cons, ih]
        simp [hp']
      · rw [if_neg hp, hasKey_cons, hasKey_cons, ih]

theorem getVal_dropKey_other {c c' : String} (h : c' ≠ c) (r : Row) :
    getVal (dropKey r c) c' = getVal r c' := by
  induction r with
  | nil => rfl
  | cons p r ih =>
      rw [dropKey_cons]
      by_cases hp : p.1 = c
      · have hp' : ¬ p.1 = c' := by rw [hp]; exact fun hh => h hh.symm
        rw [if_pos hp, ih, getVal, if_neg hp']
      · rw [if_neg hp, getVal, getVal]
        by_cases hp' : p.1 = c'
        · rw [if_pos hp', if_pos hp']
        · rw [if_neg hp', if_neg hp', ih]

theorem dropKey_of_hasKey_false {r : Row} {c : String} (h : hasKey r c = false) :
    dropKey r c = r := by
  induction r with
  | nil => rfl
  | cons p r ih =>
      rw [hasKey_cons, Bool.or_eq_false_iff, decide_eq_false_iff_not] at h
      rw [dropKey_cons, if_neg h.1, ih h.2]

/-! ### Table-level column lemmas -/

theorem hasCol_cons (r : Row) (t : Table) (c : String) :
    hasCol (r :: t) c = (hasKey r c || hasCol t c) := rfl

theorem hasCol_dropCol_self (t : Table) (c : String) : hasCol (dropCol t c) c = false := by
  induction t with
  | nil => rfl
  | cons r t ih =>
      show hasCol (dropKey r c :: dropCol t c) c = false
      rw [hasCol_cons, hasKey_dropKey_self, ih]
      rfl

theorem hasCol_dropCol_other {c c' : String} (h : c' ≠ c) (t : Table) :
    hasCol (dropCol t c) c' = hasCol t c' := by
  induction t with
  | nil => rfl
  | cons r t ih =>
      show hasCol (dropKey r c :: dropCol t c) c' = _
      rw [hasCol_cons, hasKey_dropKey_other h, ih, hasCol_cons]

theorem dropCol_of_hasCol_false {t : Table} {c : String} (h : hasCol t c = false) :
    dropCol t c = t := by
  induction t with
  | nil => rfl
  | cons r t ih =>
      rw [hasCol_cons, Bool.or_eq_false_iff] at h
      show dropKey r c :: dropCol t c = r :: t
      rw [dropKey_of_hasKey_false h.1, ih h.2]


/-! ### Sorting and distinctness lemmas -/

/-- Descending-by-count order refined by a tie relation `S`: the order
`sortPairs` produces when its input is ordered by `S`. -/
def descTie (S : (Value × Nat) → (Value × Nat) → Prop) (a b : Value × Nat) : Prop :=
  b.2 < a.2 ∨ (a.2 = b.2 ∧ S a b)

theorem mem_insertPair {x y : Value × Nat} : ∀ {l}, y ∈ insertPair x l ↔ y = x ∨ y ∈ l
  | [] => by simp [insertPair]
  | z :: zs => by
      rw [insertPair]
      by_cases hc : z.2 ≤ x.2
      · rw [if_pos hc]
        simp
      · rw [if_neg hc]
        simp only [List.mem_cons, mem_insertPair]
        tauto

theorem mem_sortPairs {y : Value × Nat} : ∀ {l}, y ∈ sortPairs l ↔ y ∈ l
  | [] => Iff.rfl
  | z :: zs => by
      rw [sortPairs, mem_insertPair, mem_sortPairs, List.mem_cons]

theorem pairwise_insertPair {S : (Value × Nat) → (Value × Nat) → Prop} {x : Value × Nat} :
    ∀ {l}, l.Pairwise (descTie S) → (∀ y ∈ l, S x y) →
      (insertPair x l).Pairwise (descTie S)
  | [], _, _ => List.pairwise_singleton _ _
  | y :: ys, hl, hx => by
      rcases List.pairwise_cons.mp hl with ⟨hy, hys⟩
      rw [insertPair]
      by_cases hc : y.2 ≤ x.2
      · rw [if_pos hc]
        refine List.pairwise_cons.mpr ⟨?_, hl⟩
        intro z hz
        rcases List.mem_cons.mp hz with hzy | hzys
        · subst hzy
          rcases Nat.lt_or_ge z.2 x.2 with h1 | h1
          · exact Or.inl h1
          · exact Or.inr ⟨Nat.le_antisymm h1 hc, hx z (List.mem_cons_self z ys)⟩
        · rcases hy z hzys with h1 | ⟨h1, _⟩
          · exact Or.inl (Nat.lt_of_lt_of_le h1 hc)
          · rcases Nat.lt_or_ge z.2 x.2 with h2 | h2
            · exact Or.inl h2
            · refine Or.inr ⟨by omega, hx z (List.mem_cons_of_mem y hzys)⟩
      · rw [if_neg hc]
        refine List.pairwise_cons.mpr
          ⟨?_, pairwise_insertPair hys (fun z hz => hx z (List.mem_cons_of_mem y hz))⟩
        intro z hz
        rcases mem_insertPair.mp hz with hzx | hzys
        · subst hzx
          exact Or.inl (Nat.lt_of_not_le hc)
        · exact hy z hzys

theorem pairwise_sortPairs {S : (Value × Nat) → (Value × Nat) → Prop} :
    ∀ {l}, l.Pairwise S → (sortPairs l).Pairwise (descTie S)
  | [], _ => List.Pairwise.nil
  | x :: xs, hl => by
      rcases List.pairwise_cons.mp hl with ⟨hx, hxs⟩
      rw [sortPairs]
      exact pairwise_insertPair (pairwise_sortPairs hxs)
        (fun y hy => hx y (mem_sortPairs.mp hy))

/-- Any list is pairwise ordered by the relation making each earlier/later
pair of its elements a two-element sublist of it. -/
theorem pairwise_sublist_self : ∀ (D : List Value), D.Pairwise (fun a b => [a, b].Sublist D)
  | [] => List.Pairwise.nil
  | x :: xs => by
      refine List.pairwise_cons.mpr ⟨?_, ?_⟩
      · intro b hb
        exact (List.singleton_sublist.mpr hb).cons₂ x
      · exact (pairwise_sublist_self xs).imp (fun h => h.cons x)

theorem insertPair_front {x : Value × Nat} : ∀ {l}, (∀ y ∈ l, y.2 ≤ x.2) →
    insertPair x l = x :: l
  | [], _ => rfl
  | y :: ys, h => by
      rw [insertPair, if_pos (h y (List.mem_cons_self y ys))]

/-- A stable sort leaves a list already sorted by descending count unchanged. -/
theorem sortPairs_eq_self : ∀ {l : List (Value × Nat)},
    l.Pairwise (fun a b => b.2 ≤ a.2) → sortPairs l = l
  | [], _ => rfl
  | x :: xs, hl => by
      rcases List.pairwise_cons.mp hl with ⟨hx, hxs⟩
      rw [sortPairs, sortPairs_eq_self hxs, insertPair_front hx]

theorem length_insertPair (x : Value × Nat) :
    ∀ (l : List (Value × Nat)), (insertPair x l).length = l.length + 1
  | [] => rfl
  | y :: ys => by
      rw [insertPair]
      by_cases hc : y.2 ≤ x.2
      · rw [if_pos hc]; rfl
      · rw [if_neg hc, List.length_cons, length_insertPair x ys, List.length_cons]

theorem length_sortPairs : ∀ (l : List (Value × Nat)), (sortPairs l).length = l.length
  | [] => rfl
  | x :: xs => by
      rw [sortPairs, length_insertPair, length_sortPairs xs, List.length_cons]

theorem mem_distinctAux {a : Value} : ∀ {l seen}, a ∈ distinctAux l seen ↔ (a ∈ l ∧ a ∉ seen)
  | [], seen => by simp [distinctAux]
  | x :: xs, seen => by
      rw [distinctAux]
      by_cases hx : x ∈ seen
      · rw [if_pos hx, mem_distinctAux]
        constructor
        · rintro ⟨h1, h2⟩
          exact ⟨List.mem_cons_of_mem x h1, h2⟩
        · rintro ⟨h1, h2⟩
          rcases List.mem_cons.mp h1 with h1 | h1
          · exact absurd (h1 ▸ hx) h2
          · exact ⟨h1, h2⟩
      · rw [if_neg hx]
        constructor
        · intro h
          rcases List.mem_cons.mp h with h1 | h1
          · exact ⟨h1 ▸ List.mem_cons_self x xs, h1 ▸ hx⟩
          · rcases mem_distinctAux.mp h1 with ⟨h2, h3⟩
            exact ⟨List.mem_cons_of_mem x h2, fun hs => h3 (List.mem_cons_of_mem x hs)⟩
        · rintro ⟨h1, h2⟩
          by_cases hax : a = x
          · exact hax ▸ List.mem_cons_self x _
          · rcases List.mem_cons.mp h1 with h3 | h3
            · exact absurd h3 hax
            · refine List.mem_cons_of_mem x (mem_distinctAux.mpr ⟨h3, ?_⟩)
              intro hs
              rcases List.mem_cons.mp hs with h4 | h4
              · exact hax h4
              · exact h2 h4

theorem mem_distinctInOrder {a : Value} {l : List Value} :
    a ∈ distinctInOrder l ↔ a ∈ l := by
  rw [distinctInOrder, mem_distinctAux]
  simp

theorem nodup_distinctAux : ∀ (l seen : List Value), (distinctAux l seen).Nodup
  | [], _ => List.nodup_nil
  | x :: xs, seen => by
      rw [distinctAux]
      by_cases hx : x ∈ seen
      · rw [if_pos hx]
        exact nodup_distinctAux xs seen
      · rw [if_neg hx]
        refine List.nodup_cons.mpr ⟨?_, nodup_distinctAux xs (x :: seen)⟩
        intro hmem
        exact (mem_distinctAux.mp hmem).2 (List.mem_cons_self x seen)

theorem nodup_distinctInOrder (l : List Value) : (distinctInOrder l).Nodup :=
  nodup_distinctAux l []

/-- The pair list `valueCounts` sorts is ordered by first appearance. -/
theorem pairwise_valueCounts_input (l : List Value) :
    ((distinctInOrder l).map (fun a => (a, countVal l a))).Pairwise
      (fun a b => [a.1, b.1].Sublist (distinctInOrder l)) := by
  rw [List.pairwise_map]
  exact pairwise_sublist_self (distinctInOrder l)

/-- `valueCounts` output: descending counts, ties in first-appearance order. -/
theorem pairwise_valueCounts (l : List Value) :
    (valueCounts l).Pairwise (descTie (fun a b => [a.1, b.1].Sublist (distinctInOrder l))) :=
  pairwise_sortPairs (pairwise_valueCounts_input l)

/-- The descending re-sort of line 81 and the `nlargest` of line 117 leave
the already-sorted `valueCounts` output unchanged. -/
theorem sortPairs_valueCounts (l : List Value) :
    sortPairs (valueCounts l) = valueCounts l :=
  sortPairs_eq_self ((pairwise_valueCounts l).imp (fun h => by
    rcases h with h | ⟨h, _⟩
    · exact Nat.le_of_lt h
    · exact Nat.le_of_eq h.symm))

theorem length_valueCounts (l : List Value) :
    (valueCounts l).length = (distinctInOrder l).length := by
  rw [valueCounts, length_sortPairs, List.length_map]


/-! ### Example tables used by the claim theorems -/

/-- A one-record table carrying only a weather label (no `Date`, no wind). -/
def exNoDate : Table := [[("Weather", Value.str "Sunny")]]

/-- A one-record table with weather, date and temperature but no wind column. -/
def exNoWind : Table :=
  [[("Weather", Value.str "Sunny"), ("Date", Value.str "2024-03-15"),
    ("Temperature(°C)", Value.num 20)]]

/-- The spec example: conditions `Sunny, Sunny, Rainy`. -/
def exConditions : Table :=
  [[("Weather", Value.str "Sunny")], [("Weather", Value.str "Sunny")],
   [("Weather", Value.str "Rainy")]]

/-! ### Claim theorems -/

/-- C2 (claim fails on the code): the script does not skip the
monthly-extremes, boxplot and wind-pivot steps when their columns are
missing.  On a non-empty table without a `Date` column, the unguarded
`df['Date'] = pd.to_datetime(df['Date'])` of line 132 raises `KeyError`
right after the pie and bar charts, so no later aggregation runs; on a
table with `Date` and temperature but no `Wind (mph)` column, the unguarded
subscript of line 205 raises after five charts, blocking the word cloud.
Both runs contradict the claim that a missing column only skips its own
aggregation. -/
theorem c2_missing_columns_abort_pipeline :
    runCharts exNoDate =
      ([.pie [(Value.str "Sunny", 1)], .bar [(Value.str "Sunny", 1)]],
       some (Err.keyError "Date"))
    ∧ runCharts exNoWind =
      ([.pie [(Value.str "Sunny", 1)], .bar [(Value.str "Sunny", 1)],
        .line [(Value.num 3, 20, 20)], .hist [20], .box [(Value.num 3, 20)]],
       some (Err.keyError "Wind (mph)")) := by
  constructor
  · decide
  · decide

/-- C5: the top-10 frequency ranking over the condition column has at most
10 entries and is sorted by descending count with a deterministic tie order
(ties stay in first-appearance order, stated as a two-element sublist of
the first-appearance list); with fewer than 10 distinct categories it
returns every category, without padding. -/
theorem c5_top10_frequency_ranking (t : Table) :
    (weatherTop10 t).length ≤ 10
    ∧ (weatherTop10 t).Pairwise
        (descTie (fun a b => [a.1, b.1].Sublist (distinctInOrder (getColVals t "Weather"))))
    ∧ ((distinctInOrder (getColVals t "Weather")).length < 10 →
        weatherTop10 t = valueCounts (getColVals t "Weather")
        ∧ (weatherTop10 t).length = (distinctInOrder (getColVals t "Weather")).length) := by
  have hrw : weatherTop10 t = (valueCounts (getColVals t "Weather")).take 10 := by
    rw [weatherTop10, sortPairs_valueCounts]
  refine ⟨?_, ?_, ?_⟩
  · rw [hrw]
    exact List.length_take_le 10 _
  · rw [hrw]
    exact (pairwise_valueCounts (getColVals t "Weather")).sublist (List.take_sublist 10 _)
  · intro hlt
    have hlen : (valueCounts (getColVals t "Weather")).length ≤ 10 := by
      rw [length_valueCounts]
      exact Nat.le_of_lt hlt
    have hall : weatherTop10 t = valueCounts (getColVals t "Weather") := by
      rw [hrw, List.take_of_length_le hlen]
    exact ⟨hall, by rw [hall, length_valueCounts]⟩

/-- Witness for C5 at a concrete table with two distinct categories. -/
theorem c5_top10_frequency_ranking_witness :
    (weatherTop10 exConditions).length ≤ 10
    ∧ (weatherTop10 exConditions).Pairwise
        (descTie (fun a b =>
          [a.1, b.1].Sublist (distinctInOrder (getColVals exConditions "Weather"))))
    ∧ (weatherTop10 exConditions = valueCounts (getColVals exConditions "Weather")
        ∧ (weatherTop10 exConditions).length
            = (distinctInOrder (getColVals exConditions "Weather")).length) :=
  ⟨(c5_top10_frequency_ranking exConditions).1,
   (c5_top10_frequency_ranking exConditions).2.1,
   (c5_top10_frequency_ranking exConditions).2.2 (by decide)⟩

/-- C6: the condition distribution of line 81 keeps at most five
category/count pairs, in descending count order with ties kept in the
original first-appearance order of the labels, and the spec example
`Sunny, Sunny, Rainy` yields `Sunny: 2, Rainy: 1`. -/
theorem c6_condition_distribution (t : Table) :
    (weatherCountsHead t).length ≤ 5
    ∧ (weatherCountsHead t).Pairwise
        (descTie (fun a b => [a.1, b.1].Sublist (distinctInOrder (getColVals t "Weather"))))
    ∧ weatherCountsHead exConditions = [(Value.str "Sunny", 2), (Value.str "Rainy", 1)] := by
  have hrw : weatherCountsHead t = (valueCounts (getColVals t "Weather")).take 5 := by
    rw [weatherCountsHead, sortPairs_valueCounts]
  refine ⟨?_, ?_, by decide⟩
  · rw [hrw]
    exact List.length_take_le 5 _
  · rw [hrw]
    exact (pairwise_valueCounts (getColVals t "Weather")).sublist (List.take_sublist 5 _)

/-- C8: on an empty loaded table the page renders no chart at all (so every
aggregation output list is zero-length), raises nothing, and shows the
no-data notice instead. -/
theorem c8_empty_table_notice :
    renderPage ([] : Table) =
      { charts := [], err := none, warning := some "No data available for visualization" } := rfl


/-- Environment in which the CSV read fails (for the C1 witness). -/
def envFileFail : Env :=
  ⟨.error .fileError, true, true, true, true, []⟩

/-- Environment with a pre-populated collection and all calls succeeding
(for the C9 witness). -/
def envStoreFull : Env :=
  ⟨.ok [[("x", Value.num 1)]], true, true, true, true, [[("Weather", Value.str "Sunny")]]⟩

/-- C1: whenever any step of the loading body fails, `load_data` catches the
failure at its boundary, reports exactly one error message, and returns the
empty table; `load_data` is a total function, so no exception escapes it. -/
theorem c1_catch_all_single_error (env : Env) (e : Err) (h : load_body env = .error e) :
    load_data env = ([errMsg e], ([] : Table)) ∧ [errMsg e].length = 1 := by
  constructor
  · unfold load_data
    rw [h]
  · rfl

/-- Witness for C1: the CSV read fails. -/
theorem c1_catch_all_single_error_witness :
    load_data envFileFail = ([errMsg Err.fileError], ([] : Table))
    ∧ [errMsg Err.fileError].length = 1 :=
  c1_catch_all_single_error envFileFail Err.fileError rfl

/-- C9: in a successful seed-then-read load, the bulk insert runs exactly
when the collection was empty; when the collection already holds a
document, its contents are left unchanged and the returned table is the
cleaned store contents (independent of the file contents). -/
theorem c9_seed_iff_store_empty (env : Env) (t : Table) (s1 : List Row) (b : Bool)
    (h : load_body env = .ok (t, s1, b)) :
    (b = true ↔ env.store = [])
    ∧ (env.store ≠ [] → s1 = env.store ∧ clean env.store = some t) := by
  rcases env with ⟨fr, co, cto, io, fo, st⟩
  cases fr with
  | error e1 => simp [load_body] at h
  | ok fileDf =>
      cases co with
      | false => simp [load_body] at h
      | true =>
          cases cto with
          | false => simp [load_body] at h
          | true =>
              cases st with
              | nil =>
                  cases io with
                  | false => simp [load_body] at h
                  | true =>
                      cases fo with
                      | false => simp [load_body] at h
                      | true =>
                          simp only [load_body, Bool.not_true, Bool.false_eq_true,
                            if_false, List.isEmpty_nil, if_true, List.nil_append] at h
                          cases hc : clean (seedDocs fileDf) with
                          | none => rw [hc] at h; simp at h
                          | some c =>
                              rw [hc] at h
                              simp only [Except.ok.injEq, Prod.mk.injEq] at h
                              obtain ⟨h1, h2, h3⟩ := h
                              subst h1; subst h2; subst h3
                              exact ⟨by simp, fun hne => absurd rfl hne⟩
              | cons r rs =>
                  cases fo with
                  | false => simp [load_body] at h
                  | true =>
                      simp only [load_body, Bool.not_true, Bool.false_eq_true,
                        if_false, List.isEmpty_cons, if_true] at h
                      cases hc : clean (r :: rs) with
                      | none => rw [hc] at h; simp at h
                      | some c =>
                          rw [hc] at h
                          simp only [Except.ok.injEq, Prod.mk.injEq] at h
                          obtain ⟨h1, h2, h3⟩ := h
                          subst h1; subst h2; subst h3
                          exact ⟨by simp, fun _ => ⟨rfl, rfl⟩⟩

/-- Witness for C9: a collection holding one document is read back as is,
with no insert. -/
theorem c9_seed_iff_store_empty_witness :
    ((false = true) ↔ ([[("Weather", Value.str "Sunny")]] : List Row) = [])
    ∧ (([[("Weather", Value.str "Sunny")]] : List Row) ≠ [] →
        ([[("Weather", Value.str "Sunny")]] : List Row) = [[("Weather", Value.str "Sunny")]]
        ∧ clean [[("Weather", Value.str "Sunny")]] = some [[("Weather", Value.str "Sunny")]]) :=
  c9_seed_iff_store_empty envStoreFull
    [[("Weather", Value.str "Sunny")]] [[("Weather", Value.str "Sunny")]] false rfl


/-! ### Cleaning idempotence (C3) -/

theorem parseDate_isDate {v v0 : Value} (h : parseDate v = some v0) :
    ∃ d, v0 = Value.date d := by
  cases v with
  | date d =>
      rw [parseDate] at h
      exact ⟨d, (Option.some.inj h).symm⟩
  | str s =>
      rw [parseDate] at h
      rcases Option.map_eq_some'.mp h with ⟨d, _, hd⟩
      exact ⟨d, hd.symm⟩
  | num q => exact absurd h (by rw [parseDate]; simp)

theorem parseDate_date (d : DateV) : parseDate (Value.date d) = some (Value.date d) := rfl

/-- The canonical shape of a successful `cleanRow`. -/
theorem cleanRow_shape {r r' : Row} (h : cleanRow r = some r') :
    (getVal r "date" = none ∧ r' = r)
    ∨ (∃ v d, getVal r "date" = some v ∧ parseDate v = some (Value.date d)
        ∧ r' = setKey (setKey (setKey r "date" (Value.date d)) "Month"
            (.num ((d.month : ℕ) : ℚ))) "Month_Name" (.str (monthName d.month))) := by
  rw [cleanRow] at h
  cases hg : getVal r "date" with
  | none =>
      rw [hg] at h
      exact Or.inl ⟨rfl, (Option.some.inj h).symm⟩
  | some v =>
      rw [hg] at h
      rcases Option.map_eq_some'.mp h with ⟨v0, hv0, hr'⟩
      rcases parseDate_isDate hv0 with ⟨d, rfl⟩
      refine Or.inr ⟨v, d, rfl, hv0, ?_⟩
      rw [← hr']
      rfl

/-- Re-cleaning a cleaned row changes nothing. -/
theorem cleanRow_idem {r r' : Row} (h : cleanRow r = some r') : cleanRow r' = some r' := by
  rcases cleanRow_shape h with ⟨hg, rfl⟩ | ⟨v, d, hg, hp, rfl⟩
  · rw [cleanRow, hg]
  · have hdate : getVal (setKey (setKey (setKey r "date" (Value.date d)) "Month"
        (.num ((d.month : ℕ) : ℚ))) "Month_Name" (.str (monthName d.month))) "date"
        = some (Value.date d) := by
      rw [getVal_setKey_other (by decide), getVal_setKey_other (by decide), getVal_setKey_self]
    have hmonth : getVal (setKey (setKey (setKey r "date" (Value.date d)) "Month"
        (.num ((d.month : ℕ) : ℚ))) "Month_Name" (.str (monthName d.month))) "Month"
        = some (.num ((d.month : ℕ) : ℚ)) := by
      rw [getVal_setKey_other (by decide), getVal_setKey_self]
    have hname : getVal (setKey (setKey (setKey r "date" (Value.date d)) "Month"
        (.num ((d.month : ℕ) : ℚ))) "Month_Name" (.str (monthName d.month))) "Month_Name"
        = some (.str (monthName d.month)) := getVal_setKey_self _ _ _
    rw [cleanRow, hdate]
    simp only [parseDate_date, Option.map_some', dateMonth]
    rw [setKey_getVal_eq hdate, setKey_getVal_eq hmonth, setKey_getVal_eq hname]

/-- `cleanRow` never introduces an `_id` entry. -/
theorem cleanRow_id_absent {r r' : Row} (hid : hasKey r "_id" = false)
    (h : cleanRow r = some r') : hasKey r' "_id" = false := by
  rcases cleanRow_shape h with ⟨_, rfl⟩ | ⟨v, d, _, _, rfl⟩
  · exact hid
  · rw [hasKey_setKey_other (by decide), hasKey_setKey_other (by decide),
      hasKey_setKey_other (by decide)]
    exact hid

/-- `cleanRow` preserves presence of the `date` column. -/
theorem cleanRow_hasKey_date {r r' : Row} (h : cleanRow r = some r') :
    hasKey r' "date" = hasKey r "date" := by
  rcases cleanRow_shape h with ⟨_, rfl⟩ | ⟨v, d, hg, _, rfl⟩
  · rfl
  · rw [hasKey_setKey_other (by decide), hasKey_setKey_other (by decide),
      hasKey_setKey_self, hasKey_of_getVal_some hg]

/-- The canonical shape of a successful `cleanRows`. -/
theorem cleanRows_cons {r : Row} {rs : List Row} {l' : List Row}
    (h : cleanRows (r :: rs) = some l') :
    ∃ r1 rs1, cleanRow r = some r1 ∧ cleanRows rs = some rs1 ∧ l' = r1 :: rs1 := by
  rw [cleanRows] at h
  cases hr : cleanRow r with
  | none => rw [hr] at h; exact absurd h (by simp)
  | some r1 =>
      cases hrs : cleanRows rs with
      | none => rw [hr, hrs] at h; exact absurd h (by simp)
      | some rs1 =>
          rw [hr, hrs] at h
          exact ⟨r1, rs1, rfl, rfl, (Option.some.inj h).symm⟩

/-- Re-cleaning cleaned rows changes nothing. -/
theorem cleanRows_idem : ∀ {l l' : List Row}, cleanRows l = some l' → cleanRows l' = some l'
  | [], l', h => by
      rw [cleanRows] at h
      rw [← Option.some.inj h, cleanRows]
  | r :: rs, l', h => by
      rcases cleanRows_cons h with ⟨r1, rs1, hr, hrs, rfl⟩
      rw [cleanRows, cleanRow_idem hr, cleanRows_idem hrs]

/-- Cleaning preserves `_id`-absence across the table. -/
theorem cleanRows_id_absent : ∀ {l l' : List Row}, hasCol l "_id" = false →
    cleanRows l = some l' → hasCol l' "_id" = false
  | [], l', _, h => by
      rw [cleanRows] at h
      rw [← Option.some.inj h]
      rfl
  | r :: rs, l', hid, h => by
      rcases cleanRows_cons h with ⟨r1, rs1, hr, hrs, rfl⟩
      rw [hasCol_cons, Bool.or_eq_false_iff] at hid
      rw [hasCol_cons, cleanRow_id_absent hid.1 hr, cleanRows_id_absent hid.2 hrs]
      rfl

/-- Cleaning preserves presence of the `date` column across the table. -/
theorem cleanRows_hasCol_date : ∀ {l l' : List Row},
    cleanRows l = some l' → hasCol l' "date" = hasCol l "date"
  | [], l', h => by
      rw [cleanRows] at h
      rw [← Option.some.inj h]
  | r :: rs, l', h => by
      rcases cleanRows_cons h with ⟨r1, rs1, hr, hrs, rfl⟩
      rw [hasCol_cons, hasCol_cons, cleanRow_hasKey_date hr, cleanRows_hasCol_date hrs]

theorem dropIdCol_id_false (t : Table) : hasCol (dropIdCol t) "_id" = false := by
  rw [dropIdCol]
  by_cases hc : hasCol t "_id" = true
  · rw [if_pos hc]
    exact hasCol_dropCol_self t "_id"
  · rw [if_neg hc]
    exact Bool.eq_false_iff.mpr hc

theorem dropIdCol_of_id_false {t : Table} (h : hasCol t "_id" = false) : dropIdCol t = t := by
  rw [dropIdCol, if_neg (by rw [h]; simp)]

/-- C3: cleaning is idempotent — cleaning any valid table (one on which
cleaning succeeds) a second time returns it unchanged. -/
theorem c3_clean_idempotent (t t' : Table) (h : clean t = some t') : clean t' = some t' := by
  have hid1 : hasCol (dropIdCol t) "_id" = false := dropIdCol_id_false t
  by_cases hd : hasCol (dropIdCol t) "date" = true
  · rw [clean, if_pos hd] at h
    have hid' : hasCol t' "_id" = false := cleanRows_id_absent hid1 h
    have hdrop : dropIdCol t' = t' := dropIdCol_of_id_false hid'
    have hd' : hasCol t' "date" = true := by rw [cleanRows_hasCol_date h]; exact hd
    rw [clean, hdrop, if_pos hd']
    exact cleanRows_idem h
  · rw [clean, if_neg hd] at h
    have ht' : dropIdCol t = t' := Option.some.inj h
    subst ht'
    rw [clean, dropIdCol_of_id_false hid1, if_neg hd]

/-- A raw table with a parseable date column and an `_id` column. -/
def exCleanIn : Table :=
  [[("_id", Value.str "x"), ("date", Value.str "2024-03-15"),
    ("Temperature(°C)", Value.num 20)]]

/-- The cleaned form of `exCleanIn`. -/
def exCleanOut : Table :=
  [[("date", Value.date ⟨2024, 3, 15⟩), ("Temperature(°C)", Value.num 20),
    ("Month", Value.num 3), ("Month_Name", Value.str "March")]]

/-- Witness for C3: a table with a parseable date column and an `_id`. -/
theorem c3_clean_idempotent_witness :
    clean exCleanIn = some exCleanOut ∧ clean exCleanOut = some exCleanOut :=
  ⟨by decide, c3_clean_idempotent exCleanIn exCleanOut (by decide)⟩


/-! ### Frame effects of cleaning on the capital-`Date` schema (C10) -/

instance exceptDecEq {ε α : Type} [DecidableEq ε] [DecidableEq α] : DecidableEq (Except ε α)
  | .error a, .error b =>
      if h : a = b then .isTrue (by rw [h])
      else .isFalse (fun hh => h (Except.error.inj hh))
  | .error a, .ok b => .isFalse (fun hh => Except.noConfusion hh)
  | .ok a, .error b => .isFalse (fun hh => Except.noConfusion hh)
  | .ok a, .ok b =>
      if h : a = b then .isTrue (by rw [h])
      else .isFalse (fun hh => h (Except.ok.inj hh))

theorem getColVals_cons (r : Row) (t : Table) (c : String) :
    getColVals (r :: t) c =
      match getVal r c with
      | some v => v :: getColVals t c
      | none => getColVals t c := by
  rw [getColVals, List.filterMap_cons]
  cases getVal r c <;> rfl

theorem getColVals_dropCol {c c0 : String} (h : c ≠ c0) :
    ∀ (t : Table), getColVals (dropCol t c0) c = getColVals t c
  | [] => rfl
  | r :: t => by
      show getColVals (dropKey r c0 :: dropCol t c0) c = _
      rw [getColVals_cons, getColVals_cons, getVal_dropKey_other h, getColVals_dropCol h t]

theorem dropIdCol_eq_dropCol (t : Table) : dropIdCol t = dropCol t "_id" := by
  rw [dropIdCol]
  by_cases hc : hasCol t "_id" = true
  · rw [if_pos hc]
  · rw [if_neg hc, dropCol_of_hasCol_false (Bool.eq_false_iff.mpr hc)]

/-- The canonical shape of a successful `monthRow`. -/
theorem monthRow_shape {r r' : Row} (h : monthRow r = some r') :
    (getVal r "Date" = none ∧ r' = r)
    ∨ (∃ v d, getVal r "Date" = some v ∧ parseDate v = some (Value.date d)
        ∧ r' = setKey (setKey r "Date" (Value.date d)) "Month" (.num ((d.month : ℕ) : ℚ))) := by
  rw [monthRow] at h
  cases hg : getVal r "Date" with
  | none =>
      rw [hg] at h
      exact Or.inl ⟨rfl, (Option.some.inj h).symm⟩
  | some v =>
      rw [hg] at h
      rcases Option.map_eq_some'.mp h with ⟨v0, hv0, hr'⟩
      rcases parseDate_isDate hv0 with ⟨d, rfl⟩
      exact Or.inr ⟨v, d, rfl, hv0, hr'.symm⟩

/-- After the line-132/133 mutation, a row's `Month` cell is the month
number of its (parsed) `Date` cell. -/
theorem monthRow_month {r r' : Row} (h : monthRow r = some r') :
    ∀ v, getVal r' "Date" = some v →
      ∃ d, v = Value.date d ∧ getVal r' "Month" = some (.num ((d.month : ℕ) : ℚ)) := by
  rcases monthRow_shape h with ⟨hg, rfl⟩ | ⟨v0, d, hg, hp, rfl⟩
  · intro v hv
    rw [hg] at hv
    exact absurd hv (by simp)
  · intro v hv
    rw [getVal_setKey_other (by decide), getVal_setKey_self] at hv
    exact ⟨d, (Option.some.inj hv).symm, getVal_setKey_self _ _ _⟩

/-- The line-132/133 mutation never creates a `Month_Name` entry. -/
theorem monthRow_monthName {r r' : Row} (h : monthRow r = some r') :
    hasKey r' "Month_Name" = hasKey r "Month_Name" := by
  rcases monthRow_shape h with ⟨_, rfl⟩ | ⟨v0, d, _, _, rfl⟩
  · rfl
  · rw [hasKey_setKey_other (by decide), hasKey_setKey_other (by decide)]

/-- The canonical shape of a successful `monthRows`. -/
theorem monthRows_cons {r : Row} {rs l' : List Row} (h : monthRows (r :: rs) = some l') :
    ∃ r1 rs1, monthRow r = some r1 ∧ monthRows rs = some rs1 ∧ l' = r1 :: rs1 := by
  rw [monthRows] at h
  cases hr : monthRow r with
  | none => rw [hr] at h; exact absurd h (by simp)
  | some r1 =>
      cases hrs : monthRows rs with
      | none => rw [hr, hrs] at h; exact absurd h (by simp)
      | some rs1 =>
          rw [hr, hrs] at h
          exact ⟨r1, rs1, rfl, rfl, (Option.some.inj h).symm⟩

theorem monthRows_month : ∀ {l l' : List Row}, monthRows l = some l' →
    ∀ r' ∈ l', ∀ v, getVal r' "Date" = some v →
      ∃ d, v = Value.date d ∧ getVal r' "Month" = some (.num ((d.month : ℕ) : ℚ))
  | [], l', h => by
      rw [monthRows] at h
      rw [← Option.some.inj h]
      intro r' hr'
      exact absurd hr' (by simp)
  | r :: rs, l', h => by
      rcases monthRows_cons h with ⟨r1, rs1, hr, hrs, rfl⟩
      intro r' hr'
      rcases List.mem_cons.mp hr' with hr' | hr'
      · exact hr' ▸ monthRow_month hr
      · exact monthRows_month hrs r' hr'

theorem monthRows_monthName : ∀ {l l' : List Row}, hasCol l "Month_Name" = false →
    monthRows l = some l' → hasCol l' "Month_Name" = false
  | [], l', _, h => by
      rw [monthRows] at h
      rw [← Option.some.inj h]
      rfl
  | r :: rs, l', hmn, h => by
      rcases monthRows_cons h with ⟨r1, rs1, hr, hrs, rfl⟩
      rw [hasCol_cons, Bool.or_eq_false_iff] at hmn
      rw [hasCol_cons, monthRow_monthName hr, hmn.1,
        monthRows_monthName hmn.2 hrs]
      rfl

/-- A successful monthly-extremes step performed exactly the `monthRows`
mutation on the frame. -/
theorem monthlyStep_rows {u u' : Table} {o : Option ChartOut}
    (h : monthlyStep u = .ok (u', o)) : monthRows u = some u' := by
  rw [monthlyStep] at h
  by_cases hc : hasCol u "Date" = true
  · rw [if_pos hc] at h
    cases hm : monthRows u with
    | none => rw [hm] at h; exact absurd h (by simp)
    | some t1 =>
        rw [hm] at h
        dsimp only at h
        by_cases hg : (hasCol t1 "Month" && hasCol t1 "Temperature(°C)") = true
        · rw [if_pos hg] at h
          rw [(Prod.mk.inj (Except.ok.inj h)).1]
        · rw [if_neg hg] at h
          rw [(Prod.mk.inj (Except.ok.inj h)).1]
  · rw [if_neg hc] at h
    exact absurd h (by simp)

/-- C10: on a table without a lowercase `date` column, cleaning only strips
`_id` — every other column is unchanged and no month-number or month-name
field is added; the `Month` column the monthly aggregations use is derived
later, by the monthly-extremes step, from the parsed `Date` cell of each
row, and that step never creates a `Month_Name` field. -/
theorem c10_capital_date_schema (t u u' : Table) (o : Option ChartOut)
    (ht : hasCol t "date" = false)
    (hm : monthlyStep u = .ok (u', o)) :
    clean t = some (dropCol t "_id")
    ∧ (∀ c, c ≠ "_id" → getColVals (dropCol t "_id") c = getColVals t c)
    ∧ hasCol (dropCol t "_id") "Month" = hasCol t "Month"
    ∧ hasCol (dropCol t "_id") "Month_Name" = hasCol t "Month_Name"
    ∧ (∀ r' ∈ u', ∀ v, getVal r' "Date" = some v →
        ∃ d, v = Value.date d ∧ getVal r' "Month" = some (.num ((d.month : ℕ) : ℚ)))
    ∧ (hasCol u "Month_Name" = false → hasCol u' "Month_Name" = false) := by
  have hrows := monthlyStep_rows hm
  have hdate1 : hasCol (dropIdCol t) "date" = false := by
    rw [dropIdCol_eq_dropCol, hasCol_dropCol_other (by decide), ht]
  refine ⟨?_, fun c hc => getColVals_dropCol hc t,
    hasCol_dropCol_other (by decide) t, hasCol_dropCol_other (by decide) t,
    monthRows_month hrows, fun hmn => monthRows_monthName hmn hrows⟩
  rw [clean, if_neg (by rw [hdate1]; simp), dropIdCol_eq_dropCol]

/-- The frame of `exNoWind` after the line-132/133 mutation. -/
def exNoWindMonthly : Table :=
  [[("Weather", Value.str "Sunny"), ("Date", Value.date ⟨2024, 3, 15⟩),
    ("Temperature(°C)", Value.num 20), ("Month", Value.num 3)]]

/-- Witness for C10 at the concrete tables `exNoDate` and `exNoWind`. -/
theorem c10_capital_date_schema_witness :
    clean exNoDate = some (dropCol exNoDate "_id")
    ∧ (∀ c, c ≠ "_id" → getColVals (dropCol exNoDate "_id") c = getColVals exNoDate c)
    ∧ hasCol (dropCol exNoDate "_id") "Month" = hasCol exNoDate "Month"
    ∧ hasCol (dropCol exNoDate "_id") "Month_Name" = hasCol exNoDate "Month_Name"
    ∧ (∀ r' ∈ exNoWindMonthly, ∀ v, getVal r' "Date" = some v →
        ∃ d, v = Value.date d ∧ getVal r' "Month" = some (.num ((d.month : ℕ) : ℚ)))
    ∧ (hasCol exNoWind "Month_Name" = false → hasCol exNoWindMonthly "Month_Name" = false) :=
  c10_capital_date_schema exNoDate exNoWind exNoWindMonthly
    (some (.line [(Value.num 3, 20, 20)])) (by decide) (by decide)


/-! ### Wind pivot counting (C4) -/

/-- Whether the cell `g r` is one of the values in `ws`. -/
def memOf (g : Row → Option Value) (ws : List Value) (r : Row) : Bool :=
  match g r with
  | some v => decide (v ∈ ws)
  | none => false

theorem memOf_nil (g : Row → Option Value) (r : Row) : memOf g [] r = false := by
  rw [memOf]
  cases g r <;> simp

/-- Splitting a filtered count over the head of the value list. -/
theorem count_split {g : Row → Option Value} {p : Row → Bool} {w : Value} {ws : List Value}
    (hw : w ∉ ws) (l : List Row) :
    (l.filter (fun r => p r && memOf g (w :: ws) r)).length
      = (l.filter (fun r => p r && decide (g r = some w))).length
        + (l.filter (fun r => p r && memOf g ws r)).length := by
  simp only [← List.countP_eq_length_filter, memOf]
  induction l with
  | nil => rfl
  | cons r l ih =>
      cases hp : p r
      · rw [List.countP_cons_of_neg _ _ (by simp [hp]), List.countP_cons_of_neg _ _ (by simp [hp]),
          List.countP_cons_of_neg _ _ (by simp [hp])]
        exact ih
      · cases hg : g r with
        | none =>
            rw [List.countP_cons_of_neg _ _ (by simp [hg]),
              List.countP_cons_of_neg _ _ (by simp [hg]),
              List.countP_cons_of_neg _ _ (by simp [hg])]
            exact ih
        | some v =>
            by_cases hv : v = w
            · subst hv
              rw [List.countP_cons_of_pos _ _ (by simp [hp, hg]),
                List.countP_cons_of_pos _ _ (by simp [hp, hg]),
                List.countP_cons_of_neg _ _ (by simp [hg, show v ∉ ws from hw])]
              omega
            · by_cases hmem : v ∈ ws
              · rw [List.countP_cons_of_pos _ _ (by simp [hp, hg, hmem]),
                  List.countP_cons_of_neg _ _ (by simp [hg, hv]),
                  List.countP_cons_of_pos _ _ (by simp [hp, hg, hmem])]
                omega
              · rw [List.countP_cons_of_neg _ _ (by simp [hg, hv, hmem]),
                  List.countP_cons_of_neg _ _ (by simp [hg, hv]),
                  List.countP_cons_of_neg _ _ (by simp [hg, hmem])]
                exact ih

/-- The sum of per-value filtered counts over a duplicate-free value list
equals the count of rows whose cell lies in the list. -/
theorem sum_counts_eq {g : Row → Option Value} {p : Row → Bool} :
    ∀ {ws : List Value}, ws.Nodup → ∀ l : List Row,
      ((ws.map (fun w => (l.filter (fun r => p r && decide (g r = some w))).length)).sum)
      = (l.filter (fun r => p r && memOf g ws r)).length
  | [], _, l => by
      simp only [List.map_nil, List.sum_nil]
      have h : l.filter (fun r => p r && memOf g [] r) = [] := by
        apply List.filter_eq_nil_iff.mpr
        intro r _
        rw [memOf_nil]
        simp
      rw [h]
      rfl
  | w :: ws, hnd, l => by
      rcases List.nodup_cons.mp hnd with ⟨hw, hnd'⟩
      rw [List.map_cons, List.sum_cons, sum_counts_eq hnd' l, count_split hw l]

/-- Every row of the filtered frame has a wind cell appearing among the
pivot columns. -/
theorem windFiltered_memOf {t : Table} {r : Row} (hr : r ∈ windFiltered t) :
    memOf (fun r => getVal r "Wind (mph)") (pivotCols t) r = true := by
  have hin : windInTop t r = true := List.of_mem_filter hr
  rw [windInTop] at hin
  rw [memOf]
  cases hg : getVal r "Wind (mph)" with
  | none => rw [hg] at hin; exact absurd hin (by simp)
  | some v =>
      simp only [decide_eq_true_eq]
      apply mem_distinctInOrder.mpr
      exact List.mem_filterMap.mpr ⟨r, hr, hg⟩

/-- C4: in the wind-by-month pivot, the sum of all cells of a month's row
equals the number of that month's records whose wind descriptor is among
the overall top-10 descriptors; a descriptor outside the top-10 has a zero
cell in every month, i.e. such records contribute to no cell. -/
theorem c4_wind_pivot_row_sum (t : Table) (m : Value) (hm : m ∈ pivotMonths t) :
    ((pivotCols t).map (fun w => pivotCell t m w)).sum
      = (t.filter (fun r => windInTop t r && decide (getVal r "Month" = some m))).length
    ∧ ∀ w, w ∉ top10Winds t → pivotCell t m w = 0 := by
  constructor
  · have h1 : ((pivotCols t).map (fun w => ((windFiltered t).filter
        (fun r => decide (getVal r "Month" = some m)
          && decide (getVal r "Wind (mph)" = some w))).length)).sum
        = ((windFiltered t).filter (fun r => decide (getVal r "Month" = some m)
            && memOf (fun r => getVal r "Wind (mph)") (pivotCols t) r)).length :=
      sum_counts_eq (nodup_distinctInOrder (getColVals (windFiltered t) "Wind (mph)"))
        (windFiltered t)
    have h2 : (windFiltered t).filter
        (fun r => decide (getVal r "Month" = some m)
          && memOf (fun r => getVal r "Wind (mph)") (pivotCols t) r)
        = (windFiltered t).filter (fun r => decide (getVal r "Month" = some m)) := by
      apply List.filter_congr
      intro r hr
      rw [windFiltered_memOf hr, Bool.and_true]
    have h3 : (windFiltered t).filter (fun r => decide (getVal r "Month" = some m))
        = t.filter (fun r => windInTop t r && decide (getVal r "Month" = some m)) := by
      rw [windFiltered, List.filter_filter]
      apply List.filter_congr
      intro r _
      rw [Bool.and_comm]
    calc ((pivotCols t).map (fun w => pivotCell t m w)).sum
        = ((pivotCols t).map (fun w => ((windFiltered t).filter
            (fun r => decide (getVal r "Month" = some m)
              && decide (getVal r "Wind (mph)" = some w))).length)).sum := rfl
      _ = ((windFiltered t).filter (fun r => decide (getVal r "Month" = some m)
            && memOf (fun r => getVal r "Wind (mph)") (pivotCols t) r)).length := h1
      _ = ((windFiltered t).filter (fun r => decide (getVal r "Month" = some m))).length := by
            rw [h2]
      _ = (t.filter (fun r => windInTop t r && decide (getVal r "Month" = some m))).length := by
            rw [h3]
  · intro w hw
    rw [pivotCell]
    have h : (windFiltered t).filter
        (fun r => decide (getVal r "Month" = some m)
          && decide (getVal r "Wind (mph)" = some w)) = [] := by
      apply List.filter_eq_nil_iff.mpr
      intro r hr habs
      rw [Bool.and_eq_true, decide_eq_true_eq, decide_eq_true_eq] at habs
      have hin : windInTop t r = true := List.of_mem_filter hr
      rw [windInTop, habs.2] at hin
      exact hw (by simpa using hin)
    rw [h]
    rfl

/-- A three-record wind table: months 1 and 2, descriptors `N` and `S`. -/
def exWind : Table :=
  [[("Month", Value.num 1), ("Wind (mph)", Value.str "N")],
   [("Month", Value.num 1), ("Wind (mph)", Value.str "S")],
   [("Month", Value.num 2), ("Wind (mph)", Value.str "N")]]

/-- Witness for C4 at the month-1 row of `exWind`. -/
theorem c4_wind_pivot_row_sum_witness :
    ((pivotCols exWind).map (fun w => pivotCell exWind (Value.num 1) w)).sum
      = (exWind.filter (fun r =>
          windInTop exWind r && decide (getVal r "Month" = some (Value.num 1)))).length
    ∧ ∀ w, w ∉ top10Winds exWind → pivotCell exWind (Value.num 1) w = 0 :=
  c4_wind_pivot_row_sum exWind (Value.num 1) (by decide)


/-! ### Pearson correlation properties (C7) -/

theorem zip_self : ∀ (l : List ℚ), l.zip l = l.map (fun a => (a, a))
  | [] => rfl
  | x :: xs => by
      rw [List.zip_cons_cons, List.map_cons, zip_self xs]

theorem covQ_comm (xs ys : List ℚ) : covQ xs ys = covQ ys xs := by
  rw [covQ, covQ, ← List.zip_swap xs ys, List.map_map, List.length_map]
  congr 1
  refine congrArg List.sum (List.map_congr_left ?_)
  intro p _
  simp only [Function.comp_apply, Prod.fst_swap, Prod.snd_swap]
  ring

theorem varQ_nonneg (xs : List ℚ) : 0 ≤ varQ xs := by
  rw [varQ, covQ, zip_self, List.map_map]
  apply div_nonneg
  · apply List.sum_nonneg
    intro x hx
    rcases List.mem_map.mp hx with ⟨a, _, rfl⟩
    simp only [Function.comp_apply]
    exact mul_self_nonneg _
  · exact Nat.cast_nonneg _

theorem pearson_comm (xs ys : List ℚ) : pearson xs ys = pearson ys xs := by
  rw [pearson, pearson, covQ_comm, mul_comm]

theorem pearson_self {xs : List ℚ} (h : varQ xs ≠ 0) : pearson xs xs = 1 := by
  rw [pearson]
  have h0 : ((varQ xs : ℚ) : ℝ) ≠ 0 := by exact_mod_cast h
  have h1 : (0 : ℝ) ≤ ((varQ xs : ℚ) : ℝ) := by exact_mod_cast varQ_nonneg xs
  rw [show covQ xs xs = varQ xs from rfl, Real.mul_self_sqrt h1]
  exact div_self h0

/-- C7: when all three numeric feature columns are present and each has
nonzero variance (non-degenerate values), the correlation step produces a
3 by 3 matrix that is symmetric with every diagonal entry equal to 1; when
any feature column is absent the step produces nothing at all. -/
theorem c7_corr_matrix (t t2 : Table)
    (hpres : featuresL.all (fun f => hasCol t f) = true)
    (hvar : ∀ i : Fin 3, varQ (colNums t (featureAt i)) ≠ 0)
    (habs : featuresL.all (fun f => hasCol t2 f) = false) :
    (∃ M, corrStep t = some M
      ∧ (∀ i j, M i j = M j i)
      ∧ (∀ i, M i i = 1))
    ∧ corrStep t2 = none := by
  constructor
  · refine ⟨fun i j => pearson (colNums t (featureAt i)) (colNums t (featureAt j)),
      ?_, ?_, ?_⟩
    · rw [corrStep, if_pos hpres]
    · intro i j
      exact pearson_comm _ _
    · intro i
      exact pearson_self (hvar i)
  · rw [corrStep, if_neg (by rw [habs]; simp)]

/-- A two-record table with all three numeric feature columns, each of
nonzero variance. -/
def exCorr : Table :=
  [[("Temperature(°C)", Value.num 0), ("Humidity (%)", Value.num 0),
    ("Barometer (inHg)", Value.num 0)],
   [("Temperature(°C)", Value.num 1), ("Humidity (%)", Value.num 2),
    ("Barometer (inHg)", Value.num 4)]]

/-- Witness for C7: `exCorr` yields a symmetric unit-diagonal matrix and a
table without the feature columns yields nothing. -/
theorem c7_corr_matrix_witness :
    (∃ M, corrStep exCorr = some M
      ∧ (∀ i j, M i j = M j i)
      ∧ (∀ i, M i i = 1))
    ∧ corrStep exNoDate = none :=
  c7_corr_matrix exCorr exNoDate (by decide)
    (by
      have h0 : colNums exCorr "Temperature(°C)" = [0, 1] := rfl
      have h1 : colNums exCorr "Humidity (%)" = [0, 2] := rfl
      have h2 : colNums exCorr "Barometer (inHg)" = [0, 4] := rfl
      intro i
      fin_cases i
      · rw [show featureAt ⟨0, by omega⟩ = "Temperature(°C)" from rfl, h0]
        norm_num [varQ, covQ, meanQ]
      · rw [show featureAt ⟨1, by omega⟩ = "Humidity (%)" from rfl, h1]
        norm_num [varQ, covQ, meanQ]
      · rw [show featureAt ⟨2, by omega⟩ = "Barometer (inHg)" from rfl, h2]
        norm_num [varQ, covQ, meanQ])
    (by decide)

end WebCode
